import Mathlib

/-!
Shallow embedding of the hover/drop-zone classification engine of
packages/core/src/service/hover/index.ts, together with theorems settling
the specification claims about it.

JavaScript numbers are modelled by exact rationals; Math.floor and
Math.round translate to Int.floor and half-up rounding respectively.
Side effects are made explicit: each zone interpreter returns the list of
action-dispatch calls it performs, the diagnostic logger output is an
Option value, and the module-level memoization table is passed and
returned as explicit state.
-/

set_option maxHeartbeats 1000000
set_option linter.unusedVariables false
set_option linter.unreachableTactic false
set_option linter.unusedTactic false

namespace RP

/-- Rounding as performed by JavaScript Math.round on finite inputs:
half-up rounding, floor of x + 1/2. -/
def jsRound (q : ℚ) : ℤ := ⌊q + 1 / 2⌋

/-- Flooring as performed by JavaScript Math.floor on finite inputs. -/
def jsFloor (q : ℚ) : ℤ := ⌊q⌋

/-- Pixel vector, from types/hover (a position or a per-cell scale). -/
structure Vec where
  x : ℚ
  y : ℚ
deriving DecidableEq

/-- Target rectangle, from types/hover. -/
structure Room where
  width : ℚ
  height : ℚ
deriving DecidableEq

/-- Discrete zone-matrix index, from types/hover. -/
structure MatrixIndex where
  row : ℤ
  cell : ℤ
deriving DecidableEq

/-- A zone matrix: a grid of integer zone-class codes. -/
abbrev HMatrix := List (List ℕ)

/-- Inline side marker of a cell node. -/
inductive Side
  | left
  | right
deriving DecidableEq

/-- Modelled from the spec: the per-direction maximum nesting levels of a
node descriptor (types/editable is not part of the excerpt); level limits
are non-negative integers. -/
structure NodeLevels where
  above : ℕ
  below : ℕ
  left : ℕ
  right : ℕ
deriving DecidableEq

/-- Modelled from the spec: the read-only node descriptor consumed by the
hover engine (types/editable Node and its isRow discriminator are not part
of the excerpt). It carries the identity, the row/cell kind discriminator,
the inline marker, the id of an adjacent inline sibling if any, the
per-direction level limits and the plugin capability flag isInlineable
(content.plugin.isInlineable, defaulting to false when absent). -/
structure Node where
  id : String
  isRow : Bool
  inline : Option Side
  hasInlineNeighbour : Option String
  levels : NodeLevels
  isInlineable : Bool
deriving DecidableEq

/-- Size record inside the hover context. -/
structure CtxSize where
  rows : ℕ
  cells : ℕ
deriving DecidableEq

/-- The Context record passed to zone interpreters in hover/index.ts. -/
structure Context where
  room : Room
  mouse : Vec
  position : MatrixIndex
  size : CtxSize
  scale : Vec
deriving DecidableEq

/-- An action-dispatch call on the Callbacks object: which method was
invoked and with which level argument, matching the calls performed by
the interpreters in hover/index.ts. -/
inductive ActionCall
  | clear
  | above (level : ℤ)
  | below (level : ℤ)
  | leftOf (level : ℤ)
  | rightOf (level : ℤ)
  | inlineLeft
  | inlineRight
deriving DecidableEq

/-- A zone interpreter: returns the list of action-dispatch calls it
performs (the source functions call the action methods for effect). -/
abbrev CallbackFn := Node → Node → Context → List ActionCall

/- Zone class codes, from the classes table of hover/index.ts. -/

def clsNO : ℕ := 0

def clsC1 : ℕ := 10

def clsC2 : ℕ := 11

def clsC3 : ℕ := 12

def clsC4 : ℕ := 13

def clsAH : ℕ := 200

def clsAA : ℕ := 201

def clsBH : ℕ := 210

def clsBA : ℕ := 211

def clsLH : ℕ := 220

def clsLA : ℕ := 221

def clsRH : ℕ := 230

def clsRA : ℕ := 231

def clsIL : ℕ := 300

def clsIR : ℕ := 301

/-- The 6x6 default matrix of hover/index.ts. -/
def matrix6x6 : HMatrix :=
  [[clsC1, clsAA, clsAA, clsAA, clsAA, clsC2],
   [clsLA, clsIL, clsAH, clsAH, clsIR, clsRA],
   [clsLA, clsLH, clsNO, clsNO, clsRH, clsRA],
   [clsLA, clsLH, clsNO, clsNO, clsRH, clsRA],
   [clsLA, clsC4, clsBH, clsBH, clsC3, clsRA],
   [clsC4, clsBA, clsBA, clsBA, clsBA, clsC3]]

/-- The 10x10 default matrix of hover/index.ts. -/
def matrix10x10 : HMatrix :=
  [[clsC1, clsAA, clsAA, clsAA, clsAA, clsAA, clsAA, clsAA, clsAA, clsC2],
   [clsLA, clsIL, clsIL, clsIL, clsAH, clsAH, clsIR, clsIR, clsIR, clsRA],
   [clsLA, clsIL, clsIL, clsIL, clsAH, clsAH, clsIR, clsIR, clsIR, clsRA],
   [clsLA, clsIL, clsIL, clsIL, clsAH, clsAH, clsIR, clsIR, clsIR, clsRA],
   [clsLA, clsLH, clsLH, clsLH, clsC1, clsC2, clsRH, clsRH, clsRH, clsRA],
   [clsLA, clsLH, clsLH, clsLH, clsC4, clsC3, clsRH, clsRH, clsRH, clsRA],
   [clsLA, clsLH, clsLH, clsC4, clsBH, clsBH, clsC3, clsIR, clsRH, clsRA],
   [clsLA, clsLH, clsC4, clsBH, clsBH, clsBH, clsBH, clsC3, clsRH, clsRA],
   [clsLA, clsC4, clsBH, clsBH, clsBH, clsBH, clsBH, clsBH, clsC3, clsRA],
   [clsC4, clsBA, clsBA, clsBA, clsBA, clsBA, clsBA, clsBA, clsBA, clsC3]]

/-- The 10x10-no-inline default matrix of hover/index.ts. -/
def matrix10x10NoInline : HMatrix :=
  [[clsC1, clsAA, clsAA, clsAA, clsAA, clsAA, clsAA, clsAA, clsAA, clsC2],
   [clsLA, clsC1, clsAH, clsAH, clsAH, clsAH, clsAH, clsAH, clsC2, clsRA],
   [clsLA, clsLH, clsC1, clsAH, clsAH, clsAH, clsAH, clsC2, clsRH, clsRA],
   [clsLA, clsLH, clsLH, clsC1, clsAH, clsAH, clsC2, clsRH, clsRH, clsRA],
   [clsLA, clsLH, clsLH, clsLH, clsC1, clsC2, clsRH, clsRH, clsRH, clsRA],
   [clsLA, clsLH, clsLH, clsLH, clsC4, clsC3, clsRH, clsRH, clsRH, clsRA],
   [clsLA, clsLH, clsLH, clsC4, clsBH, clsBH, clsC3, clsRH, clsRH, clsRA],
   [clsLA, clsLH, clsC4, clsBH, clsBH, clsBH, clsBH, clsC3, clsRH, clsRA],
   [clsLA, clsC4, clsBH, clsBH, clsBH, clsBH, clsBH, clsBH, clsC3, clsRA],
   [clsC4, clsBA, clsBA, clsBA, clsBA, clsBA, clsBA, clsBA, clsBA, clsC3]]

/-- getRoomScale of hover/index.ts: average width and height of the cells
of a room. -/
def getRoomScale (room : Room) (matrix : HMatrix) : Vec :=
  { x := room.width / ((matrix.headD []).length : ℚ)
    y := room.height / (matrix.length : ℚ) }

/-- getMouseHoverCell of hover/index.ts: the (unclamped) index of the
hovered matrix cell, by floor division of the mouse by the scale. -/
def getMouseHoverCell (mouse scale : Vec) : MatrixIndex :=
  { row := jsFloor (mouse.y / scale.y)
    cell := jsFloor (mouse.x / scale.x) }

/-- The index clamping performed inline by computeHover on the result of
getMouseHoverCell: row into [0, rows-1], cell into [0, cells-1]. -/
def clampIndex (idx : MatrixIndex) (rows cells : ℕ) : MatrixIndex :=
  { row :=
      if (rows : ℤ) ≤ idx.row then (rows : ℤ) - 1
      else if idx.row < 0 then 0 else idx.row
    cell :=
      if (cells : ℤ) ≤ idx.cell then (cells : ℤ) - 1
      else if idx.cell < 0 then 0 else idx.cell }

/-- JavaScript array subscripting with an integer index: out-of-range and
negative indices yield undefined, modelled as none. -/
def getI {α : Type} (l : List α) (i : ℤ) : Option α :=
  if 0 ≤ i then l.get? i.toNat else none

/-- relativeMousePosition of hover/index.ts: the mouse position relative
to the current matrix cell, rounded per axis. -/
def relativeMousePosition (mouse : Vec) (position : MatrixIndex)
    (scale : Vec) : Vec :=
  { x := (jsRound (mouse.x - (position.cell : ℚ) * scale.x) : ℚ)
    y := (jsRound (mouse.y - (position.row : ℚ) * scale.y) : ℚ) }

/-- Level computation of computeLevel in hover/index.ts: dense regime,
a linear proportional split. -/
def computeLevelDense (size : ℚ) (levels : ℕ) (position : ℚ) : ℤ :=
  jsRound (position / (size / (levels : ℚ)))

/-- The for-loop of computeLevel in hover/index.ts in the geometric
regime. fuel counts the remaining iterations (levels + 1 - i); stepI is
steps[i] and current the running halved width, exactly as in the source
loop, whose body pushes steps[i+1] = steps[i] + current / 2 and returns i
if steps[i] + i*2 <= position < steps[i+1] + (i+1)*2. -/
def computeLevelLoop (levels : ℕ) (position : ℚ) :
    ℕ → ℕ → ℚ → ℚ → ℤ
  | 0, _, _, _ => (levels : ℤ)
  | fuel + 1, i, stepI, current =>
    if stepI + (i : ℚ) * 2 ≤ position ∧
        position < stepI + current / 2 + ((i : ℚ) + 1) * 2 then
      (i : ℤ)
    else
      computeLevelLoop levels position fuel (i + 1) (stepI + current / 2)
        (current / 2)

/-- computeLevel of hover/index.ts: converts a continuous offset into a
discrete nesting level, with a dense linear fallback when
size <= (levels+1)*2 and a geometric halving subdivision otherwise. -/
def computeLevel (size : ℚ) (levels : ℕ) (position : ℚ) : ℤ :=
  if size ≤ ((levels : ℚ) + 1) * 2 then
    computeLevelDense size levels position
  else
    computeLevelLoop levels position (levels + 1) 0 0
      (size - ((levels : ℚ) + 1) * 2)

/-- computeHorizontal of hover/index.ts: horizontal drop level from the
mouse position, with row and inline special cases and optional
inversion. -/
def computeHorizontal (mouse : Vec) (position : MatrixIndex) (hover : Node)
    (scale : Vec) (level : ℕ) (inv : Bool) : ℤ :=
  let x := (relativeMousePosition mouse position scale).x
  let a0 := computeLevel scale.x level x
  if hover.isRow then (level : ℤ)
  else
    let a1 := if hover.inline.isSome ∧ a0 = 0 then 1 else a0
    if inv then (level : ℤ) - a1 else a1

/-- computeVertical of hover/index.ts: vertical drop level from the mouse
position, with row and inline special cases and optional inversion. -/
def computeVertical (mouse : Vec) (position : MatrixIndex) (hover : Node)
    (scale : Vec) (level : ℕ) (inv : Bool) : ℤ :=
  let y := (relativeMousePosition mouse position scale).y
  let a0 := computeLevel scale.y level y
  if hover.isRow then (level : ℤ)
  else
    let a1 := if hover.inline.isSome ∧ a0 = 0 then 1 else a0
    if inv then (level : ℤ) - a1 else a1

/-- getDropLevel of hover/index.ts: 1 for a non-row inline hovered node,
else 0. -/
def getDropLevel (hover : Node) : ℤ :=
  if (!hover.isRow && hover.inline.isSome) then 1 else 0

/-- defaultCallbacks[NO]. -/
def cbNO : CallbackFn := fun _ _ _ => [ActionCall.clear]

/-- defaultCallbacks[C1]: top-left corner, diagonal split between leftOf
and above. -/
def cbC1 : CallbackFn := fun item hover ctx =>
  let mouse := relativeMousePosition ctx.mouse ctx.position ctx.scale
  let level := getDropLevel hover
  if mouse.x < mouse.y then [ActionCall.leftOf level]
  else [ActionCall.above level]

/-- defaultCallbacks[C2]: top-right corner, diagonal split between rightOf
and above. -/
def cbC2 : CallbackFn := fun item hover ctx =>
  let mouse := relativeMousePosition ctx.mouse ctx.position ctx.scale
  let level := getDropLevel hover
  if mouse.y < mouse.x then [ActionCall.rightOf level]
  else [ActionCall.above level]

/-- defaultCallbacks[C3]: bottom-right corner, diagonal split between
rightOf and below. -/
def cbC3 : CallbackFn := fun item hover ctx =>
  let mouse := relativeMousePosition ctx.mouse ctx.position ctx.scale
  let level := getDropLevel hover
  if mouse.y < mouse.x then [ActionCall.rightOf level]
  else [ActionCall.below level]

/-- defaultCallbacks[C4]: bottom-left corner, diagonal split between
leftOf and below. -/
def cbC4 : CallbackFn := fun item hover ctx =>
  let mouse := relativeMousePosition ctx.mouse ctx.position ctx.scale
  let level := getDropLevel hover
  if mouse.x < mouse.y then [ActionCall.leftOf level]
  else [ActionCall.below level]

/-- defaultCallbacks[AH]. -/
def cbAH : CallbackFn := fun item hover _ =>
  [ActionCall.above (getDropLevel hover)]

/-- defaultCallbacks[BH]. -/
def cbBH : CallbackFn := fun item hover _ =>
  [ActionCall.below (getDropLevel hover)]

/-- defaultCallbacks[LH]. -/
def cbLH : CallbackFn := fun item hover _ =>
  [ActionCall.leftOf (getDropLevel hover)]

/-- defaultCallbacks[RH]. -/
def cbRH : CallbackFn := fun item hover _ =>
  [ActionCall.rightOf (getDropLevel hover)]

/-- defaultCallbacks[AA]: above at an inverted vertical ancestor level. -/
def cbAA : CallbackFn := fun item hover ctx =>
  [ActionCall.above
    (computeVertical ctx.mouse ctx.position hover ctx.scale
      hover.levels.above true)]

/-- defaultCallbacks[BA]: below at a vertical ancestor level. -/
def cbBA : CallbackFn := fun item hover ctx =>
  [ActionCall.below
    (computeVertical ctx.mouse ctx.position hover ctx.scale
      hover.levels.below false)]

/-- defaultCallbacks[LA]: leftOf at an inverted horizontal ancestor
level. -/
def cbLA : CallbackFn := fun item hover ctx =>
  [ActionCall.leftOf
    (computeHorizontal ctx.mouse ctx.position hover ctx.scale
      hover.levels.left true)]

/-- defaultCallbacks[RA]: rightOf at a horizontal ancestor level. -/
def cbRA : CallbackFn := fun item hover ctx =>
  [ActionCall.rightOf
    (computeHorizontal ctx.mouse ctx.position hover ctx.scale
      hover.levels.right false)]

/-- defaultCallbacks[IL]: inline-left zone with its row guard and the
fall-back chain to leftOf at level 2. -/
def cbIL : CallbackFn := fun item hover _ =>
  if item.isRow || hover.isRow then []
  else if hover.inline.isSome || !item.isInlineable then
    [ActionCall.leftOf 2]
  else if hover.hasInlineNeighbour.isSome ∧
      hover.hasInlineNeighbour ≠ some item.id then
    [ActionCall.leftOf 2]
  else if hover.hasInlineNeighbour.isSome ∧
      hover.hasInlineNeighbour = some item.id ∧
      item.inline = some Side.left then
    [ActionCall.leftOf 2]
  else [ActionCall.inlineLeft]

/-- defaultCallbacks[IR]: inline-right zone with its row guard and the
fall-back chain to rightOf at level 2. -/
def cbIR : CallbackFn := fun item hover _ =>
  if item.isRow || hover.isRow then []
  else if hover.inline.isSome || !item.isInlineable then
    [ActionCall.rightOf 2]
  else if hover.hasInlineNeighbour.isSome ∧
      hover.hasInlineNeighbour ≠ some item.id then
    [ActionCall.rightOf 2]
  else if hover.hasInlineNeighbour.isSome ∧
      hover.hasInlineNeighbour = some item.id ∧
      item.inline = some Side.right then
    [ActionCall.rightOf 2]
  else [ActionCall.inlineRight]

/-- The defaultCallbacks table of hover/index.ts as a partial mapping from
zone-class codes to interpreters. -/
def defaultCallbacksMap : ℕ → Option CallbackFn := fun code =>
  if code = clsNO then some cbNO
  else if code = clsC1 then some cbC1
  else if code = clsC2 then some cbC2
  else if code = clsC3 then some cbC3
  else if code = clsC4 then some cbC4
  else if code = clsAH then some cbAH
  else if code = clsAA then some cbAA
  else if code = clsBH then some cbBH
  else if code = clsBA then some cbBA
  else if code = clsLH then some cbLH
  else if code = clsLA then some cbLA
  else if code = clsRH then some cbRH
  else if code = clsRA then some cbRA
  else if code = clsIL then some cbIL
  else if code = clsIR then some cbIR
  else none

/-- The diagnostic record passed to logger.error on a classification miss
in computeHover. -/
structure Diagnostic where
  room : Room
  mouse : Vec
  matrix : HMatrix
  scale : Vec
  hoverCell : MatrixIndex
  rows : ℕ
  cells : ℕ
deriving DecidableEq

/-- The composite memoization key built by computeHover: dragged id,
hovered id, action-dispatch object identity, and the full context. The
action-dispatch object is abstracted by a numeric identity; deepEquals
(a repository utility outside the excerpt) is modelled from the spec as
deep structural equality, which is decidable equality of this record. -/
structure MemoKey where
  item : String
  hover : String
  actions : ℕ
  ctx : Context
deriving DecidableEq

/-- The module-level memoization table last of hover/index.ts, keyed by
matrix name; absent keys hold null. -/
abbrev MemoState := String → Option MemoKey

/-- The initial memoization table: every slot null. -/
def initialMemo : MemoState := fun _ => none

/-- The zone-class code at the clamped hover cell of a matrix, as read by
computeHover via matrix[hoverCell.row][hoverCell.cell]. -/
def cellCodeOf (matrix : HMatrix) (room : Room) (mouse : Vec) : Option ℕ :=
  let scale := getRoomScale room matrix
  let hoverCell :=
    clampIndex (getMouseHoverCell mouse scale) matrix.length
      (matrix.headD []).length
  (getI matrix hoverCell.row).bind fun r => getI r hoverCell.cell

/-- The memoization key computeHover builds for an invocation (the local
object named all in the source). -/
def memoKeyOf (drag hover : Node) (actionsId : ℕ) (room : Room)
    (mouse : Vec) (matrix : HMatrix) : MemoKey :=
  let scale := getRoomScale room matrix
  let rows := matrix.length
  let cells := (matrix.headD []).length
  let hoverCell := clampIndex (getMouseHoverCell mouse scale) rows cells
  { item := drag.id
    hover := hover.id
    actions := actionsId
    ctx :=
      { room := room
        mouse := mouse
        position := hoverCell
        size := { rows := rows, cells := cells }
        scale := scale } }

/-- computeHover of hover/index.ts: computes the scale, locates and clamps
the hover cell, looks up the zone interpreter (returning a logged
diagnostic and performing nothing on a miss), suppresses the invocation on
a memo hit for the same matrix name, and otherwise records the memo key
and runs the interpreter. The result is the list of performed
action-dispatch calls, the optional diagnostic and the updated
memoization table. -/
def computeHover (drag hover : Node) (actionsId : ℕ) (room : Room)
    (mouse : Vec) (callbacks : ℕ → Option CallbackFn) (matrix : HMatrix)
    (m : String) (last : MemoState) :
    List ActionCall × Option Diagnostic × MemoState :=
  let scale := getRoomScale room matrix
  let rows := matrix.length
  let cells := (matrix.headD []).length
  let hoverCell := clampIndex (getMouseHoverCell mouse scale) rows cells
  match (cellCodeOf matrix room mouse).bind callbacks with
  | none =>
    ([], some
      { room := room, mouse := mouse, matrix := matrix, scale := scale
        hoverCell := hoverCell, rows := rows, cells := cells }, last)
  | some cb =>
    let all := memoKeyOf drag hover actionsId room mouse matrix
    if last m = some all then ([], none, last)
    else
      (cb drag hover
        { room := room, mouse := mouse, position := hoverCell
          size := { rows := rows, cells := cells }, scale := scale },
       none,
       fun k => if k = m then some all else last k)

/-- The name of the 6x6 default matrix. -/
def name6x6 : String := "6x6"

/-- The name of the 10x10 default matrix, also the default matrix name of
HoverService.hover. -/
def name10x10 : String := "10x10"

/-- The name of the 10x10-no-inline default matrix. -/
def name10x10NoInline : String := "10x10-no-inline"

/-- The defaultMatrices table of hover/index.ts. -/
def defaultMatrices : String → Option HMatrix := fun name =>
  if name = name6x6 then some matrix6x6
  else if name = name10x10 then some matrix10x10
  else if name = name10x10NoInline then some matrix10x10NoInline
  else none

/-- HoverService.hover for a service constructed with the default matrix
and callback tables: resolves the matrix name (defaulting to 10x10) and
runs computeHover; none models the TypeError a JavaScript lookup of an
unknown matrix name would produce inside computeHover. -/
def hoverService (drag hover : Node) (actionsId : ℕ) (room : Room)
    (mouse : Vec) (matrixName : Option String) (last : MemoState) :
    Option (List ActionCall × Option Diagnostic × MemoState) :=
  let use := matrixName.getD name10x10
  (defaultMatrices use).map fun matrix =>
    computeHover drag hover actionsId room mouse defaultCallbacksMap
      matrix use last

/-! Concrete fixtures used by witnesses and counterexamples. -/

/-- A plain non-row, non-inline cell node. -/
def nodeA : Node :=
  { id := "a", isRow := false, inline := none, hasInlineNeighbour := none
    levels := { above := 3, below := 3, left := 3, right := 3 }
    isInlineable := false }

/-- Another plain non-row, non-inline cell node. -/
def nodeB : Node :=
  { id := "b", isRow := false, inline := none, hasInlineNeighbour := none
    levels := { above := 3, below := 3, left := 3, right := 3 }
    isInlineable := false }

/-- A row node. -/
def nodeRow : Node :=
  { id := "r", isRow := true, inline := none, hasInlineNeighbour := none
    levels := { above := 3, below := 3, left := 3, right := 3 }
    isInlineable := false }

/-- An inline-capable dragged node currently inline on the right. -/
def nodeInlineRight : Node :=
  { id := "a", isRow := false, inline := some Side.right
    hasInlineNeighbour := none
    levels := { above := 3, below := 3, left := 3, right := 3 }
    isInlineable := true }

/-- A hovered node whose recorded inline neighbour is the node with
id a. -/
def nodeHasNeighbourA : Node :=
  { id := "h", isRow := false, inline := none
    hasInlineNeighbour := some nodeInlineRight.id
    levels := { above := 3, below := 3, left := 3, right := 3 }
    isInlineable := false }

/-- A one-cell matrix holding a code for which no interpreter is
registered. -/
def matrixBad : HMatrix := [[999]]

/-- A concrete interpreter context. -/
def ctx0 : Context :=
  { room := { width := 100, height := 100 }
    mouse := { x := 50, y := 50 }
    position := { row := 0, cell := 0 }
    size := { rows := 10, cells := 10 }
    scale := { x := 10, y := 10 } }

end RP

namespace RP

/-! ### Lemmas about the level resolver -/

/-- The geometric loop never returns a negative level. -/
theorem computeLevelLoop_nonneg (levels : ℕ) (position : ℚ) :
    ∀ fuel i stepI current,
      0 ≤ computeLevelLoop levels position fuel i stepI current := by
  intro fuel
  induction fuel with
  | zero => intro i s c; simp [computeLevelLoop]
  | succ n ih =>
    intro i s c
    rw [computeLevelLoop]
    split
    · exact Int.natCast_nonneg i
    · exact ih (i + 1) _ _

/-- The geometric loop never exceeds the maximum level, provided the
iteration counter and the remaining fuel add up as in the source loop. -/
theorem computeLevelLoop_le (levels : ℕ) (position : ℚ) :
    ∀ fuel i stepI current, i + fuel = levels + 1 →
      computeLevelLoop levels position fuel i stepI current ≤ (levels : ℤ) := by
  intro fuel
  induction fuel with
  | zero => intro i s c _; simp [computeLevelLoop]
  | succ n ih =>
    intro i s c h
    rw [computeLevelLoop]
    split
    · have hi : i ≤ levels := by omega
      exact_mod_cast hi
    · exact ih (i + 1) _ _ (by omega)

/-- The geometric loop returns at least min of the starting index and the
maximum level. -/
theorem computeLevelLoop_ge_min (levels : ℕ) (position : ℚ) :
    ∀ (fuel i : ℕ) (stepI current : ℚ),
      min (i : ℤ) (levels : ℤ) ≤
        computeLevelLoop levels position fuel i stepI current := by
  intro fuel
  induction fuel with
  | zero =>
    intro i s c
    simp [computeLevelLoop]
  | succ n ih =>
    intro i s c
    rw [computeLevelLoop]
    split
    · exact min_le_left _ _
    · have h2 := ih (i + 1) (s + c / 2) (c / 2)
      have h3 : min (i : ℤ) (levels : ℤ) ≤ min ((i + 1 : ℕ) : ℤ) (levels : ℤ) := by
        push_cast
        omega
      exact le_trans h3 h2

/-- The geometric loop is monotone in the position, provided the position
is at least the lower bound of the current band (the bands partition the
ray to the right of that bound). -/
theorem computeLevelLoop_mono (levels : ℕ) (p1 p2 : ℚ) (hp : p1 ≤ p2) :
    ∀ (fuel i : ℕ) (stepI current : ℚ), i + fuel = levels + 1 →
      stepI + (i : ℚ) * 2 ≤ p1 →
      computeLevelLoop levels p1 fuel i stepI current ≤
        computeLevelLoop levels p2 fuel i stepI current := by
  intro fuel
  induction fuel with
  | zero => intro i s c _ _; simp [computeLevelLoop]
  | succ n ih =>
    intro i s c hfuel hinv
    by_cases h1 : p1 < s + c / 2 + ((i : ℚ) + 1) * 2
    · have hl : computeLevelLoop levels p1 (n + 1) i s c = (i : ℤ) := by
        rw [computeLevelLoop, if_pos ⟨hinv, h1⟩]
      rw [hl]
      have hge := computeLevelLoop_ge_min levels p2 (n + 1) i s c
      have hi : i ≤ levels := by omega
      have hmin : min (i : ℤ) (levels : ℤ) = (i : ℤ) :=
        min_eq_left (by exact_mod_cast hi)
      omega
    · have hmiss1 : ¬(s + (i : ℚ) * 2 ≤ p1 ∧
          p1 < s + c / 2 + ((i : ℚ) + 1) * 2) := by tauto
      have h2 : ¬(p2 < s + c / 2 + ((i : ℚ) + 1) * 2) := by
        push_neg at h1 ⊢
        linarith
      have hmiss2 : ¬(s + (i : ℚ) * 2 ≤ p2 ∧
          p2 < s + c / 2 + ((i : ℚ) + 1) * 2) := by tauto
      rw [computeLevelLoop, if_neg hmiss1, computeLevelLoop, if_neg hmiss2]
      apply ih (i + 1) (s + c / 2) (c / 2) (by omega)
      push_neg at h1
      push_cast
      linarith

/-- The dense linear fallback of computeLevel stays in range for positions
inside the cell. -/
theorem computeLevelDense_range (size : ℚ) (levels : ℕ) (position : ℚ)
    (hs : 0 < size) (h0 : 0 ≤ position) (h1 : position ≤ size) :
    0 ≤ computeLevelDense size levels position ∧
      computeLevelDense size levels position ≤ (levels : ℤ) := by
  unfold computeLevelDense jsRound
  rcases Nat.eq_zero_or_pos levels with hl | hl
  · subst hl
    norm_num
  · have hlq : (0 : ℚ) < (levels : ℚ) := by exact_mod_cast hl
    have hq : position / (size / (levels : ℚ)) =
        position * (levels : ℚ) / size := div_div_eq_mul_div position size _
    have hq0 : 0 ≤ position * (levels : ℚ) / size :=
      div_nonneg (mul_nonneg h0 hlq.le) hs.le
    have hqle : position * (levels : ℚ) / size ≤ (levels : ℚ) := by
      rw [div_le_iff₀ hs]
      nlinarith
    constructor
    · rw [Int.le_floor]
      push_cast
      rw [hq]
      linarith
    · have : ⌊position / (size / (levels : ℚ)) + 1 / 2⌋ < (levels : ℤ) + 1 := by
        rw [Int.floor_lt]
        push_cast
        rw [hq]
        linarith
      omega

/-- C3 as claimed fails: in the dense regime the result is unbounded in
the position; at size 4, levels 1, position 100 the dense branch is taken
(4 is not greater than (1+1)*2) and the result is round(100 / (4/1)) = 25,
which is not in [0, 1]. -/
theorem C3_counterexample :
    computeLevel 4 1 100 = 25 ∧ ¬(computeLevel 4 1 100 ≤ ((1 : ℕ) : ℤ)) := by
  norm_num [computeLevel, computeLevelDense, jsRound]

/-- C3 amended: computeLevel always returns an integer in [0, levels] in
the geometric regime (size greater than (levels+1)*2); in the dense
regime it does so provided the size is positive and the position lies
inside [0, size]. In the dense regime the result
round(position / (size / levels)) is otherwise unbounded in the
position. -/
theorem C3_computeLevel_range (size : ℚ) (levels : ℕ) (position : ℚ)
    (h : ((levels : ℚ) + 1) * 2 < size ∨
      (0 < size ∧ 0 ≤ position ∧ position ≤ size)) :
    0 ≤ computeLevel size levels position ∧
      computeLevel size levels position ≤ (levels : ℤ) := by
  unfold computeLevel
  split
  next hdense =>
    rcases h with hgeom | ⟨hs, h0, h1⟩
    · linarith
    · exact computeLevelDense_range size levels position hs h0 h1
  next =>
    exact ⟨computeLevelLoop_nonneg levels position (levels + 1) 0 0 _,
      computeLevelLoop_le levels position (levels + 1) 0 0 _ (by omega)⟩

/-- Witness for the amended C3 at size 10, levels 1, position 3. -/
theorem C3_computeLevel_range_witness :
    (((1 : ℕ) : ℚ) + 1) * 2 < 10 ∧
      (0 ≤ computeLevel 10 1 3 ∧ computeLevel 10 1 3 ≤ ((1 : ℕ) : ℤ)) :=
  ⟨by norm_num, C3_computeLevel_range 10 1 3 (Or.inl (by norm_num))⟩

/-- C4 as claimed fails: in the geometric regime (size 10, levels 1, so
10 is greater than (1+1)*2) the function is not monotone across negative
positions: position -1 yields level 1 while position 0 yields level 0. -/
theorem C4_counterexample :
    (((1 : ℕ) : ℚ) + 1) * 2 < 10 ∧ (-1 : ℚ) ≤ 0 ∧
      ¬(computeLevel 10 1 (-1) ≤ computeLevel 10 1 0) := by
  norm_num [computeLevel, computeLevelLoop]

/-- C4 amended: in the geometric regime computeLevel is monotonically
non-decreasing in the position over non-negative positions (a position
below every band makes the loop fall through and return the maximum
level, so monotonicity fails for negative positions). -/
theorem C4_computeLevel_mono (size : ℚ) (levels : ℕ) (p1 p2 : ℚ)
    (hgeom : ((levels : ℚ) + 1) * 2 < size) (h0 : 0 ≤ p1) (h12 : p1 ≤ p2) :
    computeLevel size levels p1 ≤ computeLevel size levels p2 := by
  unfold computeLevel
  rw [if_neg (not_le.mpr hgeom), if_neg (not_le.mpr hgeom)]
  exact computeLevelLoop_mono levels p1 p2 h12 (levels + 1) 0 0 _ (by omega)
    (by simpa using h0)

/-- Witness for the amended C4 at size 10, levels 1, positions 0 and 5. -/
theorem C4_computeLevel_mono_witness :
    (((1 : ℕ) : ℚ) + 1) * 2 < 10 ∧ (0 : ℚ) ≤ 0 ∧ (0 : ℚ) ≤ 5 ∧
      computeLevel 10 1 0 ≤ computeLevel 10 1 5 :=
  ⟨by norm_num, le_refl 0, by norm_num,
    C4_computeLevel_mono 10 1 0 5 (by norm_num) le_rfl (by norm_num)⟩

/-! ### Lemmas about the cell locator and the clamping in computeHover -/

/-- The clamping computeHover applies to the located index keeps both
components inside the matrix bounds, whatever the unclamped index was. -/
theorem clampIndex_bounds (idx : MatrixIndex) (rows cells : ℕ)
    (hr : 1 ≤ rows) (hc : 1 ≤ cells) :
    0 ≤ (clampIndex idx rows cells).row ∧
      (clampIndex idx rows cells).row < (rows : ℤ) ∧
      0 ≤ (clampIndex idx rows cells).cell ∧
      (clampIndex idx rows cells).cell < (cells : ℤ) := by
  unfold clampIndex
  dsimp only
  split_ifs <;> omega

/-- JavaScript subscripting succeeds on an in-range integer index and
returns an element of the list. -/
theorem getI_isSome {α : Type} (l : List α) (i : ℤ) (h0 : 0 ≤ i)
    (hl : i < (l.length : ℤ)) : ∃ a, getI l i = some a ∧ a ∈ l := by
  unfold getI
  rw [if_pos h0]
  have hlt : i.toNat < l.length := by omega
  exact ⟨l.get ⟨i.toNat, hlt⟩, List.get?_eq_get hlt, List.get_mem l i.toNat hlt⟩

/-- C5 as claimed fails: getMouseHoverCell performs no clamping at all;
with mouse (-5, -5) and scale (10, 10) it returns row floor(-5/10) = -1,
which lies outside the bounds of every matrix. -/
theorem C5_counterexample :
    (getMouseHoverCell ⟨-5, -5⟩ ⟨10, 10⟩).row = -1 ∧
      ¬(0 ≤ (getMouseHoverCell ⟨-5, -5⟩ ⟨10, 10⟩).row) := by
  norm_num [getMouseHoverCell, jsFloor]

/-- C5 amended: the clamping is performed by computeHover, not by
getMouseHoverCell itself; the composition of the locator with that clamp
always lands inside matrix bounds, for every mouse position and scale and
every nonzero matrix dimensions. -/
theorem C5_locator_clamped (mouse scale : Vec) (rows cells : ℕ)
    (hr : 1 ≤ rows) (hc : 1 ≤ cells) :
    0 ≤ (clampIndex (getMouseHoverCell mouse scale) rows cells).row ∧
      (clampIndex (getMouseHoverCell mouse scale) rows cells).row ≤
        (rows : ℤ) - 1 ∧
      0 ≤ (clampIndex (getMouseHoverCell mouse scale) rows cells).cell ∧
      (clampIndex (getMouseHoverCell mouse scale) rows cells).cell ≤
        (cells : ℤ) - 1 := by
  have h := clampIndex_bounds (getMouseHoverCell mouse scale) rows cells hr hc
  omega

/-- Witness for the amended C5 at mouse (-5, -5), scale (10, 10) and a
10 by 10 matrix. -/
theorem C5_locator_clamped_witness :
    1 ≤ 10 ∧
      (0 ≤ (clampIndex (getMouseHoverCell ⟨-5, -5⟩ ⟨10, 10⟩) 10 10).row ∧
        (clampIndex (getMouseHoverCell ⟨-5, -5⟩ ⟨10, 10⟩) 10 10).row ≤
          (10 : ℤ) - 1 ∧
        0 ≤ (clampIndex (getMouseHoverCell ⟨-5, -5⟩ ⟨10, 10⟩) 10 10).cell ∧
        (clampIndex (getMouseHoverCell ⟨-5, -5⟩ ⟨10, 10⟩) 10 10).cell ≤
          (10 : ℤ) - 1) :=
  ⟨by norm_num,
    C5_locator_clamped ⟨-5, -5⟩ ⟨10, 10⟩ 10 10 (by norm_num) (by norm_num)⟩

/-- C10: for every real mouse position and every nonempty rectangular
matrix, the index computeHover derives by clamping the locator result is
inside the matrix bounds and the matrix lookup succeeds — even though
getMouseHoverCell itself performs no clamping and can return a negative
index, as it does at mouse (-7, -7), scale (2, 2). -/
theorem C10_lookup_in_bounds (room : Room) (mouse : Vec) (matrix : HMatrix)
    (hne : matrix ≠ [])
    (hrect : ∀ r ∈ matrix, r.length = (matrix.headD []).length)
    (hcw : 1 ≤ (matrix.headD []).length) :
    (0 ≤ (clampIndex (getMouseHoverCell mouse (getRoomScale room matrix))
        matrix.length (matrix.headD []).length).row ∧
      (clampIndex (getMouseHoverCell mouse (getRoomScale room matrix))
        matrix.length (matrix.headD []).length).row < (matrix.length : ℤ) ∧
      0 ≤ (clampIndex (getMouseHoverCell mouse (getRoomScale room matrix))
        matrix.length (matrix.headD []).length).cell ∧
      (clampIndex (getMouseHoverCell mouse (getRoomScale room matrix))
        matrix.length (matrix.headD []).length).cell <
        ((matrix.headD []).length : ℤ)) ∧
    (cellCodeOf matrix room mouse).isSome = true ∧
    (getMouseHoverCell ⟨-7, -7⟩ ⟨2, 2⟩).row < 0 := by
  have hr : 1 ≤ matrix.length := List.length_pos.mpr hne
  have hb := clampIndex_bounds
    (getMouseHoverCell mouse (getRoomScale room matrix)) matrix.length
    (matrix.headD []).length hr hcw
  refine ⟨hb, ?_, by norm_num [getMouseHoverCell, jsFloor]⟩
  obtain ⟨hb1, hb2, hb3, hb4⟩ := hb
  obtain ⟨r, hrow, hrmem⟩ := getI_isSome matrix _ hb1 hb2
  have hrlen : r.length = (matrix.headD []).length := hrect r hrmem
  obtain ⟨a, hcell, _⟩ := getI_isSome r _ hb3 (by rw [hrlen]; exact hb4)
  simp only [cellCodeOf]
  rw [hrow, Option.some_bind, hcell]
  rfl

/-- Witness for C10 on the default 10 by 10 matrix with the mouse far
outside the room. -/
theorem C10_lookup_in_bounds_witness :
    matrix10x10 ≠ [] ∧
      (∀ r ∈ matrix10x10, r.length = (matrix10x10.headD []).length) ∧
      1 ≤ (matrix10x10.headD []).length ∧
      (cellCodeOf matrix10x10 ⟨100, 100⟩ ⟨250, -30⟩).isSome = true :=
  ⟨by simp [matrix10x10], by decide, by decide,
    ((C10_lookup_in_bounds ⟨100, 100⟩ ⟨250, -30⟩ matrix10x10
      (by simp [matrix10x10]) (by decide) (by decide)).2).1⟩

/-! ### Zone interpreter claims -/

/-- C7: when the hovered node is a row, the AA ancestor interpreter
dispatches above at the hovered node's maximum above level, for every
dragged node and context — the geometric level computation and the
inversion never influence the result. -/
theorem C7_row_dispatches_above_max (item hover : Node) (ctx : Context)
    (h : hover.isRow = true) :
    cbAA item hover ctx = [ActionCall.above (hover.levels.above : ℤ)] := by
  simp [cbAA, computeVertical, h]

/-- Witness for C7 with a row node whose above limit is 3. -/
theorem C7_row_dispatches_above_max_witness :
    nodeRow.isRow = true ∧
      cbAA nodeA nodeRow ctx0 = [ActionCall.above (nodeRow.levels.above : ℤ)] :=
  ⟨rfl, C7_row_dispatches_above_max nodeA nodeRow ctx0 rfl⟩

/-- C6: the corner interpreters split on the diagonal of the relative
in-cell position — C1 picks leftOf when x is less than y and above
otherwise, C2 picks rightOf when x exceeds y and above otherwise, C3
rightOf when x exceeds y and below otherwise, C4 leftOf when x is less
than y and below otherwise — each at level 0, or 1 when the hovered node
is inline (for well-formed nodes, where a row carries no inline marker).
Concretely, on the 10x10 matrix with a 100 by 100 room and a non-row,
non-inline hovered node, mouse (2, 8) dispatches leftOf at level 0 and
mouse (8, 2) dispatches above at level 0. -/
theorem C6_corner_disambiguation (item hover : Node) (ctx : Context)
    (hwf : hover.isRow = true → hover.inline = none) :
    ((cbC1 item hover ctx =
        if (relativeMousePosition ctx.mouse ctx.position ctx.scale).x <
            (relativeMousePosition ctx.mouse ctx.position ctx.scale).y then
          [ActionCall.leftOf (if hover.inline.isSome then 1 else 0)]
        else [ActionCall.above (if hover.inline.isSome then 1 else 0)]) ∧
      (cbC2 item hover ctx =
        if (relativeMousePosition ctx.mouse ctx.position ctx.scale).y <
            (relativeMousePosition ctx.mouse ctx.position ctx.scale).x then
          [ActionCall.rightOf (if hover.inline.isSome then 1 else 0)]
        else [ActionCall.above (if hover.inline.isSome then 1 else 0)]) ∧
      (cbC3 item hover ctx =
        if (relativeMousePosition ctx.mouse ctx.position ctx.scale).y <
            (relativeMousePosition ctx.mouse ctx.position ctx.scale).x then
          [ActionCall.rightOf (if hover.inline.isSome then 1 else 0)]
        else [ActionCall.below (if hover.inline.isSome then 1 else 0)]) ∧
      (cbC4 item hover ctx =
        if (relativeMousePosition ctx.mouse ctx.position ctx.scale).x <
            (relativeMousePosition ctx.mouse ctx.position ctx.scale).y then
          [ActionCall.leftOf (if hover.inline.isSome then 1 else 0)]
        else [ActionCall.below (if hover.inline.isSome then 1 else 0)])) ∧
    (computeHover nodeA nodeB 0 ⟨100, 100⟩ ⟨2, 8⟩ defaultCallbacksMap
        matrix10x10 name10x10 initialMemo).1 = [ActionCall.leftOf 0] ∧
    (computeHover nodeA nodeB 0 ⟨100, 100⟩ ⟨8, 2⟩ defaultCallbacksMap
        matrix10x10 name10x10 initialMemo).1 = [ActionCall.above 0] := by
  refine ⟨?_, ?_, ?_⟩
  · have hlvl : getDropLevel hover =
        if hover.inline.isSome then (1 : ℤ) else 0 := by
      unfold getDropLevel
      cases hR : hover.isRow
      · simp
      · simp [hwf hR]
    exact ⟨by simp only [cbC1, hlvl], by simp only [cbC2, hlvl],
      by simp only [cbC3, hlvl], by simp only [cbC4, hlvl]⟩
  · norm_num [computeHover, cellCodeOf, getRoomScale, getMouseHoverCell,
      clampIndex, getI, jsFloor, jsRound, memoKeyOf, defaultCallbacksMap,
      matrix10x10, name10x10, initialMemo, clsNO, clsC1, clsC2, clsC3,
      clsC4, clsAH, clsAA, clsBH, clsBA, clsLH, clsLA, clsRH, clsRA,
      clsIL, clsIR, cbC1, relativeMousePosition, getDropLevel, nodeA,
      nodeB]
    simp
  · norm_num [computeHover, cellCodeOf, getRoomScale, getMouseHoverCell,
      clampIndex, getI, jsFloor, jsRound, memoKeyOf, defaultCallbacksMap,
      matrix10x10, name10x10, initialMemo, clsNO, clsC1, clsC2, clsC3,
      clsC4, clsAH, clsAA, clsBH, clsBA, clsLH, clsLA, clsRH, clsRA,
      clsIL, clsIR, cbC1, relativeMousePosition, getDropLevel, nodeA,
      nodeB]
    simp

/-- Witness for C6 with a non-row, non-inline hovered node. -/
theorem C6_corner_disambiguation_witness :
    (nodeB.isRow = true → nodeB.inline = none) ∧
      (computeHover nodeA nodeB 0 ⟨100, 100⟩ ⟨2, 8⟩ defaultCallbacksMap
        matrix10x10 name10x10 initialMemo).1 = [ActionCall.leftOf 0] :=
  ⟨fun h => by simp [nodeB] at h,
    (C6_corner_disambiguation nodeA nodeB ctx0
      (fun h => by simp [nodeB] at h)).2.1⟩

/-- C8 as claimed fails: the dragged node is inline-capable and inline on
the right, the hovered node is not inline and records the dragged node as
its inline neighbour. For the IL zone the dragged node thus sits on the
opposite side, so by the claim a disqualifier holds and leftOf at level 2
must be dispatched — but the IL interpreter only falls back when the
dragged node is inline on the same side as the zone (left), and here it
dispatches inlineLeft. -/
theorem C8_counterexample :
    nodeHasNeighbourA.inline = none ∧
      nodeInlineRight.isInlineable = true ∧
      nodeHasNeighbourA.hasInlineNeighbour = some nodeInlineRight.id ∧
      nodeInlineRight.inline = some Side.right ∧
      cbIL nodeInlineRight nodeHasNeighbourA ctx0 =
        [ActionCall.inlineLeft] := by
  refine ⟨rfl, rfl, rfl, rfl, ?_⟩
  simp [cbIL, nodeInlineRight, nodeHasNeighbourA]

/-- C8 amended: for zone IL, no action is dispatched when the dragged or
hovered node is a row; otherwise leftOf at level 2 is dispatched when the
hovered node is inline, or the dragged node is not inline-capable, or the
hovered node has an inline neighbour different from the dragged node, or
it has the dragged node as inline neighbour and the dragged node is
already inline on the same side as the zone (left for IL, right for IR);
only when none of these hold is inlineLeft dispatched, with no level
argument (symmetrically for IR with rightOf and inlineRight). -/
theorem C8_inline_zones (item hover : Node) (ctx : Context) :
    (item.isRow = true ∨ hover.isRow = true →
      cbIL item hover ctx = [] ∧ cbIR item hover ctx = []) ∧
    (item.isRow = false → hover.isRow = false →
      (cbIL item hover ctx =
        if hover.inline.isSome = true ∨ item.isInlineable = false ∨
            (hover.hasInlineNeighbour ≠ none ∧
              hover.hasInlineNeighbour ≠ some item.id) ∨
            (hover.hasInlineNeighbour = some item.id ∧
              item.inline = some Side.left) then
          [ActionCall.leftOf 2]
        else [ActionCall.inlineLeft]) ∧
      (cbIR item hover ctx =
        if hover.inline.isSome = true ∨ item.isInlineable = false ∨
            (hover.hasInlineNeighbour ≠ none ∧
              hover.hasInlineNeighbour ≠ some item.id) ∨
            (hover.hasInlineNeighbour = some item.id ∧
              item.inline = some Side.right) then
          [ActionCall.rightOf 2]
        else [ActionCall.inlineRight])) := by
  constructor
  · rintro (h | h) <;> simp [cbIL, cbIR, h]
  · intro h1 h2
    rcases hn : hover.hasInlineNeighbour with _ | nb
    · constructor <;>
        · simp only [cbIL, cbIR, h1, h2, hn]
          split_ifs <;> simp_all
    · by_cases hnb : nb = item.id
      · subst hnb
        constructor <;>
          · simp only [cbIL, cbIR, h1, h2, hn]
            split_ifs <;> simp_all
      · constructor <;>
          · simp only [cbIL, cbIR, h1, h2, hn]
            split_ifs <;> simp_all

/-- Witness for the amended C8: the counterexample configuration, where
only inlineLeft may be dispatched for IL. -/
theorem C8_inline_zones_witness :
    nodeInlineRight.isRow = false ∧ nodeHasNeighbourA.isRow = false ∧
      cbIL nodeInlineRight nodeHasNeighbourA ctx0 =
        [ActionCall.inlineLeft] := by
  refine ⟨rfl, rfl, ?_⟩
  have h := ((C8_inline_zones nodeInlineRight nodeHasNeighbourA ctx0).2
    rfl rfl).1
  rw [h]
  simp [nodeInlineRight, nodeHasNeighbourA]

/-! ### Hover engine claims -/

/-- Every interpreter of the default callback table performs at most one
action-dispatch call. -/
theorem defaultCallbacks_at_most_one {code : ℕ} {cb : CallbackFn}
    (h : defaultCallbacksMap code = some cb) (item hover : Node)
    (ctx : Context) : (cb item hover ctx).length ≤ 1 := by
  unfold defaultCallbacksMap at h
  by_cases eNO : code = clsNO
  · rw [if_pos eNO] at h
    injection h with h2
    subst h2
    simp only [cbNO]
    first
      | (split_ifs <;> simp)
      | simp
  rw [if_neg eNO] at h
  by_cases eC1 : code = clsC1
  · rw [if_pos eC1] at h
    injection h with h2
    subst h2
    simp only [cbC1]
    first
      | (split_ifs <;> simp)
      | simp
  rw [if_neg eC1] at h
  by_cases eC2 : code = clsC2
  · rw [if_pos eC2] at h
    injection h with h2
    subst h2
    simp only [cbC2]
    first
      | (split_ifs <;> simp)
      | simp
  rw [if_neg eC2] at h
  by_cases eC3 : code = clsC3
  · rw [if_pos eC3] at h
    injection h with h2
    subst h2
    simp only [cbC3]
    first
      | (split_ifs <;> simp)
      | simp
  rw [if_neg eC3] at h
  by_cases eC4 : code = clsC4
  · rw [if_pos eC4] at h
    injection h with h2
    subst h2
    simp only [cbC4]
    first
      | (split_ifs <;> simp)
      | simp
  rw [if_neg eC4] at h
  by_cases eAH : code = clsAH
  · rw [if_pos eAH] at h
    injection h with h2
    subst h2
    simp only [cbAH]
    first
      | (split_ifs <;> simp)
      | simp
  rw [if_neg eAH] at h
  by_cases eAA : code = clsAA
  · rw [if_pos eAA] at h
    injection h with h2
    subst h2
    simp only [cbAA]
    first
      | (split_ifs <;> simp)
      | simp
  rw [if_neg eAA] at h
  by_cases eBH : code = clsBH
  · rw [if_pos eBH] at h
    injection h with h2
    subst h2
    simp only [cbBH]
    first
      | (split_ifs <;> simp)
      | simp
  rw [if_neg eBH] at h
  by_cases eBA : code = clsBA
  · rw [if_pos eBA] at h
    injection h with h2
    subst h2
    simp only [cbBA]
    first
      | (split_ifs <;> simp)
      | simp
  rw [if_neg eBA] at h
  by_cases eLH : code = clsLH
  · rw [if_pos eLH] at h
    injection h with h2
    subst h2
    simp only [cbLH]
    first
      | (split_ifs <;> simp)
      | simp
  rw [if_neg eLH] at h
  by_cases eLA : code = clsLA
  · rw [if_pos eLA] at h
    injection h with h2
    subst h2
    simp only [cbLA]
    first
      | (split_ifs <;> simp)
      | simp
  rw [if_neg eLA] at h
  by_cases eRH : code = clsRH
  · rw [if_pos eRH] at h
    injection h with h2
    subst h2
    simp only [cbRH]
    first
      | (split_ifs <;> simp)
      | simp
  rw [if_neg eRH] at h
  by_cases eRA : code = clsRA
  · rw [if_pos eRA] at h
    injection h with h2
    subst h2
    simp only [cbRA]
    first
      | (split_ifs <;> simp)
      | simp
  rw [if_neg eRA] at h
  by_cases eIL : code = clsIL
  · rw [if_pos eIL] at h
    injection h with h2
    subst h2
    simp only [cbIL]
    first
      | (split_ifs <;> simp)
      | simp
  rw [if_neg eIL] at h
  by_cases eIR : code = clsIR
  · rw [if_pos eIR] at h
    injection h with h2
    subst h2
    simp only [cbIR]
    first
      | (split_ifs <;> simp)
      | simp
  rw [if_neg eIR] at h
  exact Option.noConfusion h

/-- After a computeHover invocation whose cell code is registered, the
memoization slot for the matrix name holds the key of that invocation
(whether or not the invocation was itself suppressed). -/
theorem computeHover_memo_after (drag hover : Node) (actionsId : ℕ)
    (room : Room) (mouse : Vec) (callbacks : ℕ → Option CallbackFn)
    (matrix : HMatrix) (m : String) (st : MemoState)
    (hcb : ((cellCodeOf matrix room mouse).bind callbacks).isSome = true) :
    (computeHover drag hover actionsId room mouse callbacks matrix m
      st).2.2 m =
      some (memoKeyOf drag hover actionsId room mouse matrix) := by
  obtain ⟨cb, hc⟩ := Option.isSome_iff_exists.mp hcb
  simp only [computeHover, hc]
  by_cases hhit : st m =
      some (memoKeyOf drag hover actionsId room mouse matrix)
  · rw [if_pos hhit]
    exact hhit
  · rw [if_neg hhit]
    simp

/-- A computeHover invocation whose memo slot already holds its key
dispatches nothing. -/
theorem computeHover_hit_no_dispatch (drag hover : Node) (actionsId : ℕ)
    (room : Room) (mouse : Vec) (callbacks : ℕ → Option CallbackFn)
    (matrix : HMatrix) (m : String) (st : MemoState)
    (hcb : ((cellCodeOf matrix room mouse).bind callbacks).isSome = true)
    (hhit : st m = some (memoKeyOf drag hover actionsId room mouse matrix)) :
    (computeHover drag hover actionsId room mouse callbacks matrix m
      st).1 = [] := by
  obtain ⟨cb, hc⟩ := Option.isSome_iff_exists.mp hcb
  simp only [computeHover, hc, if_pos hhit]

/-- C9: when the located matrix cell holds a code with no registered
interpreter, computeHover dispatches no action, returns normally with a
diagnostic carrying the room, mouse, matrix, scale and the offending
clamped cell coordinates, and leaves the memoization table unchanged. -/
theorem C9_classification_miss (drag hover : Node) (actionsId : ℕ)
    (room : Room) (mouse : Vec) (callbacks : ℕ → Option CallbackFn)
    (matrix : HMatrix) (m : String) (st : MemoState) (code : ℕ)
    (hcode : cellCodeOf matrix room mouse = some code)
    (hcb : callbacks code = none) :
    computeHover drag hover actionsId room mouse callbacks matrix m st =
      ([], some
        { room := room, mouse := mouse, matrix := matrix
          scale := getRoomScale room matrix
          hoverCell := clampIndex
            (getMouseHoverCell mouse (getRoomScale room matrix))
            matrix.length (matrix.headD []).length
          rows := matrix.length, cells := (matrix.headD []).length },
       st) := by
  have hmiss : (cellCodeOf matrix room mouse).bind callbacks = none := by
    rw [hcode, Option.some_bind, hcb]
  simp only [computeHover, hmiss]

/-- Witness for C9 on the unregistered code 999. -/
theorem C9_classification_miss_witness :
    cellCodeOf matrixBad ⟨10, 10⟩ ⟨5, 5⟩ = some 999 ∧
      defaultCallbacksMap 999 = none ∧
      (computeHover nodeA nodeB 0 ⟨10, 10⟩ ⟨5, 5⟩ defaultCallbacksMap
        matrixBad name10x10 initialMemo).1 = [] := by
  have hcode : cellCodeOf matrixBad ⟨10, 10⟩ ⟨5, 5⟩ = some 999 := by
    norm_num [cellCodeOf, matrixBad, getRoomScale, getMouseHoverCell,
      clampIndex, getI, jsFloor]
  have hcb : defaultCallbacksMap 999 = none := by
    norm_num [defaultCallbacksMap, clsNO, clsC1, clsC2, clsC3, clsC4,
      clsAH, clsAA, clsBH, clsBA, clsLH, clsLA, clsRH, clsRA, clsIL,
      clsIR]
  refine ⟨hcode, hcb, ?_⟩
  rw [C9_classification_miss nodeA nodeB 0 ⟨10, 10⟩ ⟨5, 5⟩
    defaultCallbacksMap matrixBad name10x10 initialMemo 999 hcode hcb]

/-- C1: every invocation of HoverService.hover on a service with the
default tables resolves its matrix name and runs computeHover, which
performs at most one action-dispatch call — and exactly none on a
classification miss or on a memoization hit for the resolved name. -/
theorem C1_at_most_one_dispatch (drag hover : Node) (actionsId : ℕ)
    (room : Room) (mouse : Vec) (matrixName : Option String)
    (st : MemoState) (matrix : HMatrix)
    (hm : defaultMatrices (matrixName.getD name10x10) = some matrix) :
    hoverService drag hover actionsId room mouse matrixName st =
      some (computeHover drag hover actionsId room mouse
        defaultCallbacksMap matrix (matrixName.getD name10x10) st) ∧
    (computeHover drag hover actionsId room mouse defaultCallbacksMap
      matrix (matrixName.getD name10x10) st).1.length ≤ 1 ∧
    ((cellCodeOf matrix room mouse).bind defaultCallbacksMap = none →
      (computeHover drag hover actionsId room mouse defaultCallbacksMap
        matrix (matrixName.getD name10x10) st).1 = []) ∧
    (st (matrixName.getD name10x10) =
        some (memoKeyOf drag hover actionsId room mouse matrix) →
      (computeHover drag hover actionsId room mouse defaultCallbacksMap
        matrix (matrixName.getD name10x10) st).1 = []) := by
  refine ⟨by simp [hoverService, hm], ?_, ?_, ?_⟩
  · rcases hc : (cellCodeOf matrix room mouse).bind defaultCallbacksMap
      with _ | cb
    · simp [computeHover, hc]
    · simp only [computeHover, hc]
      by_cases hhit : st (matrixName.getD name10x10) =
          some (memoKeyOf drag hover actionsId room mouse matrix)
      · rw [if_pos hhit]
        simp
      · rw [if_neg hhit]
        obtain ⟨code, -, hcode⟩ := Option.bind_eq_some.mp hc
        exact defaultCallbacks_at_most_one hcode drag hover _
  · intro hmiss
    simp [computeHover, hmiss]
  · intro hhit
    rcases hc : (cellCodeOf matrix room mouse).bind defaultCallbacksMap
      with _ | cb
    · simp [computeHover, hc]
    · exact computeHover_hit_no_dispatch drag hover actionsId room mouse
        defaultCallbacksMap matrix (matrixName.getD name10x10) st
        (by rw [hc]; rfl) hhit

/-- Witness for C1 with the default matrix name. -/
theorem C1_at_most_one_dispatch_witness :
    defaultMatrices (Option.getD none name10x10) = some matrix10x10 ∧
      (computeHover nodeA nodeB 0 ⟨100, 100⟩ ⟨50, 50⟩ defaultCallbacksMap
        matrix10x10 (Option.getD none name10x10) initialMemo).1.length ≤ 1 := by
  have hm : defaultMatrices (Option.getD none name10x10) =
      some matrix10x10 := by
    simp [defaultMatrices, name6x6, name10x10, name10x10NoInline]
  exact ⟨hm, (C1_at_most_one_dispatch nodeA nodeB 0 ⟨100, 100⟩ ⟨50, 50⟩
    none initialMemo matrix10x10 hm).2.1⟩

/-- C2 as claimed fails: starting from the initial memoization state,
three hover() invocations with identical arguments dispatch once, then
nothing, then nothing; the second and third invocations form a pair of
consecutive calls with structurally identical arguments whose total
number of dispatches is zero, not one. -/
theorem C2_counterexample :
    (computeHover nodeA nodeB 0 ⟨100, 100⟩ ⟨50, 50⟩ defaultCallbacksMap
      matrix10x10 name10x10
      (computeHover nodeA nodeB 0 ⟨100, 100⟩ ⟨50, 50⟩ defaultCallbacksMap
        matrix10x10 name10x10 initialMemo).2.2).1 = [] ∧
    (computeHover nodeA nodeB 0 ⟨100, 100⟩ ⟨50, 50⟩ defaultCallbacksMap
      matrix10x10 name10x10
      (computeHover nodeA nodeB 0 ⟨100, 100⟩ ⟨50, 50⟩ defaultCallbacksMap
        matrix10x10 name10x10
        (computeHover nodeA nodeB 0 ⟨100, 100⟩ ⟨50, 50⟩
          defaultCallbacksMap matrix10x10 name10x10
          initialMemo).2.2).2.2).1 = [] := by
  have hcb : ((cellCodeOf matrix10x10 ⟨100, 100⟩ ⟨50, 50⟩).bind
      defaultCallbacksMap).isSome = true := by
    norm_num [cellCodeOf, matrix10x10, getRoomScale, getMouseHoverCell,
      clampIndex, getI, jsFloor, defaultCallbacksMap, clsNO, clsC1, clsC2,
      clsC3, clsC4, clsAH, clsAA, clsBH, clsBA, clsLH, clsLA, clsRH,
      clsRA, clsIL, clsIR]
    simp [Int.toNat_ofNat]
  constructor
  · exact computeHover_hit_no_dispatch nodeA nodeB 0 ⟨100, 100⟩ ⟨50, 50⟩
      defaultCallbacksMap matrix10x10 name10x10 _ hcb
      (computeHover_memo_after nodeA nodeB 0 ⟨100, 100⟩ ⟨50, 50⟩
        defaultCallbacksMap matrix10x10 name10x10 initialMemo hcb)
  · exact computeHover_hit_no_dispatch nodeA nodeB 0 ⟨100, 100⟩ ⟨50, 50⟩
      defaultCallbacksMap matrix10x10 name10x10 _ hcb
      (computeHover_memo_after nodeA nodeB 0 ⟨100, 100⟩ ⟨50, 50⟩
        defaultCallbacksMap matrix10x10 name10x10 _ hcb)

/-- C2 amended: for two consecutive hover() invocations with structurally
identical arguments whose located cell code has a registered interpreter,
the second invocation is always suppressed by the per-matrix-name
structural-equality memoization and dispatches nothing, and the first
dispatches at most one action; the total is exactly one whenever the
first invocation actually dispatches. -/
theorem C2_memoization_suppression (drag hover : Node) (actionsId : ℕ)
    (room : Room) (mouse : Vec) (matrixName : Option String)
    (st : MemoState) (matrix : HMatrix)
    (hm : defaultMatrices (matrixName.getD name10x10) = some matrix)
    (hcb : ((cellCodeOf matrix room mouse).bind
      defaultCallbacksMap).isSome = true) :
    ∃ r1 r2,
      hoverService drag hover actionsId room mouse matrixName st =
        some r1 ∧
      hoverService drag hover actionsId room mouse matrixName r1.2.2 =
        some r2 ∧
      r1.1.length ≤ 1 ∧ r2.1 = [] := by
  refine ⟨computeHover drag hover actionsId room mouse defaultCallbacksMap
      matrix (matrixName.getD name10x10) st,
    computeHover drag hover actionsId room mouse defaultCallbacksMap
      matrix (matrixName.getD name10x10)
      (computeHover drag hover actionsId room mouse defaultCallbacksMap
        matrix (matrixName.getD name10x10) st).2.2,
    by simp [hoverService, hm], by simp [hoverService, hm], ?_, ?_⟩
  · obtain ⟨cb, hc⟩ := Option.isSome_iff_exists.mp hcb
    simp only [computeHover, hc]
    by_cases hhit : st (matrixName.getD name10x10) =
        some (memoKeyOf drag hover actionsId room mouse matrix)
    · rw [if_pos hhit]
      simp
    · rw [if_neg hhit]
      obtain ⟨code, -, hcode⟩ := Option.bind_eq_some.mp hc
      exact defaultCallbacks_at_most_one hcode drag hover _
  · exact computeHover_hit_no_dispatch drag hover actionsId room mouse
      defaultCallbacksMap matrix (matrixName.getD name10x10) _ hcb
      (computeHover_memo_after drag hover actionsId room mouse
        defaultCallbacksMap matrix (matrixName.getD name10x10) st hcb)

/-- Witness for the amended C2 with the default matrix name and a centre
mouse position. -/
theorem C2_memoization_suppression_witness :
    defaultMatrices (Option.getD none name10x10) = some matrix10x10 ∧
      ∃ r1 r2,
        hoverService nodeA nodeB 0 ⟨100, 100⟩ ⟨50, 50⟩ none initialMemo =
          some r1 ∧
        hoverService nodeA nodeB 0 ⟨100, 100⟩ ⟨50, 50⟩ none r1.2.2 =
          some r2 ∧
        r1.1.length ≤ 1 ∧ r2.1 = [] := by
  have hm : defaultMatrices (Option.getD none name10x10) =
      some matrix10x10 := by
    simp [defaultMatrices, name6x6, name10x10, name10x10NoInline]
  have hcb : ((cellCodeOf matrix10x10 ⟨100, 100⟩ ⟨50, 50⟩).bind
      defaultCallbacksMap).isSome = true := by
    norm_num [cellCodeOf, matrix10x10, getRoomScale, getMouseHoverCell,
      clampIndex, getI, jsFloor, defaultCallbacksMap, clsNO, clsC1, clsC2,
      clsC3, clsC4, clsAH, clsAA, clsBH, clsBA, clsLH, clsLA, clsRH,
      clsRA, clsIL, clsIR]
    simp [Int.toNat_ofNat]
  exact ⟨hm, C2_memoization_suppression nodeA nodeB 0 ⟨100, 100⟩ ⟨50, 50⟩
    none initialMemo matrix10x10 hm hcb⟩

end RP
